import Mathlib

/-!
Verification of the functional core of `1001-tracklist-chapter-fetch`
(Python), shallowly embedded in Lean 4.

The embedding covers:
* `utils.format_time_ms`            — the Time Normalizer;
* `metadata.__get_track_timings__`, `__format_chapter_title__`,
  `__create_chapter_metadata__`, `__process_track__`,
  `generate_ffmetadata`            — the Chapter Synthesizer and Serializer;
* `scraper.TracklistScraper.parse_tracklist` — the Track Extractor,
  over a small HTML-tree model with the CSS-selector shapes the source uses.

Python strings are modelled as Lean `String`, Python `int` as `Int`,
`None`-or-value as `Option`, and raised exceptions as `Except` errors.
-/

namespace TCF

/-- Whitespace test matching Python `str.strip` / `int()` surrounding-space
handling for the ASCII range. -/
def pyIsSpace (c : Char) : Bool :=
  c = ' ' ∨ c = '\t' ∨ c = '\n' ∨ c = '\r' ∨ c = '\x0b' ∨ c = '\x0c'

/-- Characters of a string with leading and trailing whitespace removed,
modelling Python `str.strip()`. -/
def pyStripChars (cs : List Char) : List Char :=
  ((cs.dropWhile pyIsSpace).reverse.dropWhile pyIsSpace).reverse

/-- Value of a nonempty all-digit character list, most significant first. -/
def digitsVal (cs : List Char) : Nat :=
  cs.foldl (fun acc c => acc * 10 + (c.toNat - 48)) 0

/-- ASCII model of Python `int(s)` on a `str`: surrounding whitespace is
ignored, an optional single `+`/`-` sign precedes a nonempty digit run;
anything else raises `ValueError`, modelled as `none`. -/
def pyInt? (cs : List Char) : Option Int :=
  match pyStripChars cs with
  | [] => none
  | c :: rest =>
    if c = '+' then
      if rest ≠ [] ∧ rest.all Char.isDigit then some (digitsVal rest) else none
    else if c = '-' then
      if rest ≠ [] ∧ rest.all Char.isDigit then some (-(digitsVal rest : Int)) else none
    else
      if (c :: rest).all Char.isDigit then some (digitsVal (c :: rest)) else none

/-- Python `s.split(sep)` for a one-character separator, on character lists:
`"".split(":") = [""]`, `":".split(":") = ["", ""]`. -/
def pySplit (sep : Char) (cs : List Char) : List (List Char) :=
  match cs with
  | [] => [[]]
  | c :: rest =>
    let r := pySplit sep rest
    if c = sep then [] :: r
    else match r with
      | [] => [[c]]
      | p :: ps => (c :: p) :: ps

/-- Embedding of `utils.format_time_ms` (src/tracklist_chapter_fetch/utils.py,
lines 71–97): if the string contains a colon it is split on `:`; two fields
give `(minutes*60 + seconds)*1000`, three give
`(hours*3600 + minutes*60 + seconds)*1000`, any other field count falls
through and returns `None`; without a colon the whole string is converted as
seconds and multiplied by 1000.  A `ValueError` from `int` is caught and
yields `None`. -/
def format_time_ms (time_str : String) : Option Int :=
  let cs := time_str.toList
  if cs.contains ':' then
    match pySplit ':' cs with
    | [m, s] => do
      let minutes ← pyInt? m
      let seconds ← pyInt? s
      pure ((minutes * 60 + seconds) * 1000)
    | [h, m, s] => do
      let hours ← pyInt? h
      let minutes ← pyInt? m
      let seconds ← pyInt? s
      pure ((hours * 3600 + minutes * 60 + seconds) * 1000)
    | _ => none
  else
    (pyInt? cs).map (· * 1000)

/-- Specification predicate for the three accepted timestamp shapes of §4.1:
three colon-separated integer fields, two colon-separated integer fields, or
a bare integer string without a colon. -/
def acceptedTimestamp (s : String) : Bool :=
  let cs := s.toList
  if cs.contains ':' then
    match pySplit ':' cs with
    | [m, sec] => (pyInt? m).isSome && (pyInt? sec).isSome
    | [h, m, sec] => (pyInt? h).isSome && (pyInt? m).isSome && (pyInt? sec).isSome
    | _ => false
  else
    (pyInt? cs).isSome

/-- Track dictionary as produced by the Extractor and consumed by the
Synthesizer: each field is `none` when the key is absent (or holds `None`). -/
structure Track where
  title : Option String
  artist : Option String
  timestamp : Option String
deriving DecidableEq, Repr, Inhabited

/-- Python truthiness applied to `track.get("timestamp")`: the value passes
the `if not timestamp` guard only when present and nonempty. -/
def truthyTs (t : Track) : Option String :=
  t.timestamp.bind (fun s => if s = "" then none else some s)

/-- Embedding of `metadata.__get_track_timings__` (metadata.py, lines 31–83):
the start is the track's own parsed timestamp; for a non-last track the end
is the next track's parsed timestamp (dropping the track when that is falsy
or unparsable); the last track gets `start + 4*60*1000`. -/
def getTrackTimings (track : Track) (track_index : Nat) (tracks : List Track) :
    Option (Int × Int) :=
  match truthyTs track with
  | none => none
  | some timestamp =>
    match format_time_ms timestamp with
    | none => none
    | some start_ms =>
      if track_index < tracks.length - 1 then
        match tracks[track_index + 1]? with
        | none => none
        | some nextTrack =>
          match truthyTs nextTrack with
          | none => none
          | some next_timestamp =>
            match format_time_ms next_timestamp with
            | none => none
            | some end_ms => some (start_ms, end_ms)
      else
        some (start_ms, start_ms + 4 * 60 * 1000)

/-- Embedding of `metadata.__format_chapter_title__` (metadata.py, lines
86–101): `track.get("title", "Unknown Title")`, prefixed by the artist and
a dash when `track.get("artist")` is truthy. -/
def formatChapterTitle (track : Track) : String :=
  let title := track.title.getD "Unknown Title"
  match track.artist with
  | some artist => if artist = "" then title else artist ++ " - " ++ title
  | none => title

/-- Embedding of `metadata.__create_chapter_metadata__` (metadata.py, lines
104–122): the five literal lines of one chapter block. -/
def createChapterMetadata (start_ms end_ms : Int) (title : String) : List String :=
  ["[CHAPTER]",
   "TIMEBASE=1/1000",
   "START=" ++ toString start_ms,
   "END=" ++ toString end_ms,
   "title=" ++ title]

/-- Embedding of `metadata.__process_track__` (metadata.py, lines 125–160):
timings, then title, then the chapter block; `None` timings drop the track. -/
def processTrack (track : Track) (track_index : Nat) (tracks : List Track) :
    Option (List String) :=
  (getTrackTimings track track_index tracks).map
    (fun se => createChapterMetadata se.1 se.2 (formatChapterTitle track))

/-- Metadata lines contributed by the `for i, track in enumerate(tracks)`
loop of `generate_ffmetadata`, starting at index `i` with `rest` the suffix
of `tracks` from that index. -/
def synthLinesAux (tracks : List Track) (i : Nat) (rest : List Track) :
    List String :=
  match rest with
  | [] => []
  | t :: rs => ((processTrack t i tracks).getD []) ++ synthLinesAux tracks (i + 1) rs

/-- Errors raised by `generate_ffmetadata` as `MetadataError`
("Cannot generate metadata: No tracks provided" and
"No valid chapters could be generated"). -/
inductive MetadataError where
  | noTracks
  | noValidChapters
deriving DecidableEq, Repr

/-- Embedding of `metadata.generate_ffmetadata` (metadata.py, lines 163–190),
with `__validate_tracks__` inlined as the emptiness check: header line, one
chapter block per surviving track, error when the input is empty or the
header remains alone, newline join otherwise. -/
def generate_ffmetadata (tracks : List Track) : Except MetadataError String :=
  if tracks.isEmpty then .error .noTracks
  else
    let metadata := ";FFMETADATA1" :: synthLinesAux tracks 0 tracks
    if metadata.length ≤ 1 then .error .noValidChapters
    else .ok (String.intercalate "\n" metadata)

/-- Chapter intervals (start, end, title) emitted by the Synthesizer loop,
starting at index `i` with `rest` the suffix of `tracks` from that index. -/
def synthChaptersAux (tracks : List Track) (i : Nat) (rest : List Track) :
    List (Int × Int × String) :=
  match rest with
  | [] => []
  | t :: rs =>
    match getTrackTimings t i tracks with
    | none => synthChaptersAux tracks (i + 1) rs
    | some se => (se.1, se.2, formatChapterTitle t) :: synthChaptersAux tracks (i + 1) rs

/-- Chapter intervals the Synthesizer emits for a track list. -/
def synthChapters (tracks : List Track) : List (Int × Int × String) :=
  synthChaptersAux tracks 0 tracks

/-- Parsed start time of a track: its truthy timestamp text fed to the Time
Normalizer. -/
def parsedStart (t : Track) : Option Int :=
  (truthyTs t).bind format_time_ms

/-- Decidable statement that the parseable start times of consecutive tracks
strictly increase across the list (the spec's monotonicity assumption). -/
def consecutiveStartsIncreasing (tracks : List Track) : Bool :=
  (List.range (tracks.length - 1)).all fun i =>
    match (tracks[i]?).bind parsedStart, (tracks[i + 1]?).bind parsedStart with
    | some s, some e => decide (s < e)
    | _, _ => true

/-! ### Track Extractor model (scraper.py)

The extractor runs CSS selectors over the parsed page.  Every selector the
source uses is either `tag.class`, `tag#id`, `tag[attr]`, or a
descendant-combinator chain of those, so the HTML tree and the selector
language are modelled with exactly that much structure. -/

/-- Condition part of a simple CSS selector as used by the source:
a class (`div.tlpContainer`), an id (`div#tlp_container`), or the presence
of an attribute (`div[data-track]`). -/
inductive SelCond where
  | cls (c : String)
  | idIs (v : String)
  | attrPresent (a : String)
deriving DecidableEq, Repr

/-- Simple CSS selector: a tag name plus one condition. -/
structure SimpleSel where
  tag : String
  cond : SelCond
deriving DecidableEq, Repr

/-- HTML node: an element with tag, optional id, classes, other attribute
names and children, or a text node (a BeautifulSoup `NavigableString`). -/
inductive Node where
  | elem (tag : String) (idv : Option String) (classes : List String)
      (attrs : List String) (children : List Node)
  | text (s : String)
deriving Repr

/-- Test whether an element carries the selector's condition. -/
def matchesCond (cond : SelCond) (idv : Option String) (classes : List String)
    (attrs : List String) : Bool :=
  match cond with
  | .cls c => classes.contains c
  | .idIs v => idv = some v
  | .attrPresent a => attrs.contains a

/-- CSS matching of a simple selector against a node (text nodes never
match). -/
def matchesSimple (sel : SimpleSel) : Node → Bool
  | .elem tag idv classes attrs _ => tag = sel.tag && matchesCond sel.cond idv classes attrs
  | .text _ => false

mutual

/-- Proper descendants of a node in document (pre-)order. -/
def descendants : Node → List Node
  | .elem _ _ _ _ children => descList children
  | .text _ => []

/-- Nodes of a forest and their descendants, in document order. -/
def descList : List Node → List Node
  | [] => []
  | n :: ns => n :: descendants n ++ descList ns

end

/-- BeautifulSoup `root.select(sel)` for a simple selector: all matching
descendants in document order. -/
def selectSimple (sel : SimpleSel) (root : Node) : List Node :=
  (descendants root).filter (matchesSimple sel)

/-- BeautifulSoup `root.select` for a descendant-combinator chain: matches of
the first simple selector under the root, then the rest of the chain within
those. -/
def selectChain (root : Node) : List SimpleSel → List Node
  | [] => []
  | [sel] => selectSimple sel root
  | sel :: rest => (selectSimple sel root).flatMap (fun m => selectChain m rest)

/-- BeautifulSoup `root.select_one`: first match of `root.select`. -/
def selectOne (root : Node) (chain : List SimpleSel) : Option Node :=
  (selectChain root chain).head?

mutual

/-- A node with the simple-selector matches removed from its proper
descendants: appending an already-matched node to the synthesized wrapper
tag moves it out of its previous parent, so each appended item keeps only
its non-matching subtrees. -/
def pruneSel (sel : SimpleSel) : Node → Node
  | .elem tag idv classes attrs children => .elem tag idv classes attrs (pruneList sel children)
  | .text s => .text s

/-- Forest version of `pruneSel`. -/
def pruneList (sel : SimpleSel) : List Node → List Node
  | [] => []
  | n :: ns =>
    if matchesSimple sel n then pruneList sel ns
    else pruneSel sel n :: pruneList sel ns

end

mutual

/-- BeautifulSoup `.text` of an element: concatenation of all descendant
strings. -/
def textOf : Node → String
  | .elem _ _ _ _ children => textList children
  | .text s => s

/-- Concatenated text of a forest. -/
def textList : List Node → String
  | [] => ""
  | n :: ns => textOf n ++ textList ns

end

mutual

/-- Descendant text-node strings of a node in document order, as searched by
`find_all(text=...)`. -/
def textNodes : Node → List String
  | .elem _ _ _ _ children => textNodesList children
  | .text s => [s]

/-- Forest version of `textNodes`. -/
def textNodesList : List Node → List String
  | [] => []
  | n :: ns => textNodes n ++ textNodesList ns

end

/-- String version of Python `str.strip()`. -/
def pyStrip (s : String) : String :=
  ⟨pyStripChars s.toList⟩

/-- Successful `re.search` of the source's pattern `\d+:\d+`: some digit is
immediately followed by a colon and another digit. -/
def hasTimePattern : List Char → Bool
  | a :: b :: c :: rest =>
    (a.isDigit && b = ':' && c.isDigit) || hasTimePattern (b :: c :: rest)
  | _ => false

/-- Ordered container selectors of `parse_tracklist` (scraper.py, lines
80–86). -/
def containerSelectors : List SimpleSel :=
  [⟨"div", .cls "tlpContainer"⟩,
   ⟨"div", .idIs "tlp_container"⟩,
   ⟨"div", .cls "tlpItemsContainer"⟩,
   ⟨"div", .idIs "tlplist"⟩,
   ⟨"div", .cls "tl-container"⟩]

/-- Ordered track-record selectors, used both for the direct-document
fallback (lines 99–104) and for track-item location within the container
(lines 133–138). -/
def trackItemSelectors : List SimpleSel :=
  [⟨"div", .cls "tlpItem"⟩,
   ⟨"div", .cls "tl-item"⟩,
   ⟨"div", .cls "tracklistItem"⟩,
   ⟨"div", .attrPresent "data-track"⟩]

/-- Ordered timestamp selectors (lines 153–159); the first is the only
descendant-combinator chain the source uses. -/
def timestampSelectors : List (List SimpleSel) :=
  [[⟨"div", .cls "tlpCuePointTimecode"⟩, ⟨"span", .cls "tcWrap"⟩],
   [⟨"div", .cls "cue-time"⟩],
   [⟨"span", .cls "time"⟩],
   [⟨"span", .cls "timestamp"⟩],
   [⟨"div", .cls "tl-time"⟩]]

/-- Ordered title selectors (lines 168–173).  The artist selector list of
the source is declared but never consulted: the track dictionary always
carries `artist: None`. -/
def titleSelectors : List (List SimpleSel) :=
  [[⟨"span", .cls "trackValue"⟩],
   [⟨"div", .cls "tl-title"⟩],
   [⟨"span", .cls "title"⟩],
   [⟨"div", .cls "track-title"⟩]]

/-- Per-item field extraction of `parse_tracklist` (scraper.py, lines
175–218): the timestamp is the stripped text of the first matching timestamp
selector, falling back to the first descendant string containing a
`digits:digits` pattern when no selector matched or the text was empty; the
title is the stripped text of the first matching title selector, defaulting
to `"Unknown Track"`; the artist is always `None`; the track is kept only if
the final timestamp is truthy. -/
def extractTrack (item : Node) : Option Track :=
  let tsSel := timestampSelectors.findSome?
    (fun sel => (selectOne item sel).map (fun e => pyStrip (textOf e)))
  let regexTs := ((textNodes item).filter
    (fun s => hasTimePattern s.toList)).head?.map pyStrip
  let timestamp : Option String :=
    match tsSel with
    | none => regexTs
    | some s => if s = "" then regexTs else some s
  let titleSel := titleSelectors.findSome?
    (fun sel => (selectOne item sel).map (fun e => pyStrip (textOf e)))
  let track_full_title :=
    match titleSel with
    | none => "Unknown Track"
    | some s => if s = "" then "Unknown Track" else s
  match timestamp with
  | none => none
  | some s => if s = "" then none else some ⟨some track_full_title, none, some s⟩

/-- Errors raised by `parse_tracklist` as `ScrapingError` before the generic
re-wrap: "Could not find tracklist container in the page", "No track items
found in the tracklist", and "Failed to extract any valid track
information". -/
inductive ScrapingError where
  | noContainer
  | noItems
  | noValidTracks
deriving DecidableEq, Repr

/-- Track-item location and per-item extraction of `parse_tracklist` once a
container is in hand (scraper.py, lines 131–226): the first track-record
selector with matches within the container wins; no match is the no-items
error; items that yield no track are skipped, and zero surviving tracks is
the no-valid-tracks error. -/
def tracksFromContainer (container : Node) : Except ScrapingError (List Track) :=
  match trackItemSelectors.findSome? (fun sel =>
      match selectSimple sel container with
      | [] => none
      | items => some items) with
  | none => .error .noItems
  | some track_items =>
    let tracks := track_items.filterMap extractTrack
    if tracks.isEmpty then .error .noValidTracks else .ok tracks

/-- Direct track-record fallback of `parse_tracklist` (scraper.py, lines
97–112): the first track-record selector matching anywhere in the document,
with its matches. -/
def fallbackItems (doc : Node) : Option (SimpleSel × List Node) :=
  trackItemSelectors.findSome? (fun sel =>
    match selectSimple sel doc with
    | [] => none
    | items => some (sel, items))

/-- Embedding of `TracklistScraper.parse_tracklist` (scraper.py, lines
62–232): locate the container by the first matching container selector; if
none matches, fall back to direct track-record matches appended to a
synthesized wrapper `div` (appending moves each matched node out of its
previous parent, modelled by `pruneSel`); with no match at all, fail with
the no-container error; then locate and extract the track items. -/
def parse_tracklist (doc : Node) : Except ScrapingError (List Track) :=
  match containerSelectors.findSome? (fun sel => (selectSimple sel doc).head?) with
  | some container => tracksFromContainer container
  | none =>
    match fallbackItems doc with
    | some (sel, items) =>
      tracksFromContainer (.elem "div" none [] [] (items.map (pruneSel sel)))
    | none => .error .noContainer

/-- Document distilled from the claims for the fallback path: no container
selector matches, one track record matches directly, and it carries a
timestamp and a title. -/
def docFallback : Node :=
  .elem "html" none [] []
    [.elem "body" none [] []
      [.elem "div" none ["tlpItem"] []
        [.elem "span" none ["time"] [] [.text " 0:34 "],
         .elem "span" none ["trackValue"] [] [.text "Artist A - Song T"]]]]

/-- Variant of `docFallback` whose only track record carries no timestamp
anywhere. -/
def docFallbackNoTs : Node :=
  .elem "html" none [] []
    [.elem "body" none [] []
      [.elem "div" none ["tlpItem"] []
        [.elem "span" none ["trackValue"] [] [.text "Artist A - Song T"]]]]

/-- Document with an empty matching container and nothing else. -/
def docEmptyContainer : Node :=
  .elem "html" none [] []
    [.elem "body" none [] [] [.elem "div" none ["tlpContainer"] [] []]]

/-- Document matching only the second candidate container selector, holding
one complete track record. -/
def docSecondContainer : Node :=
  .elem "html" none [] []
    [.elem "body" none [] []
      [.elem "div" (some "tlp_container") [] []
        [.elem "div" none ["tlpItem"] []
          [.elem "span" none ["time"] [] [.text "0:34"],
           .elem "span" none ["trackValue"] [] [.text "Artist A - Song T"]]]]]

/-- Document in which nothing matches at all. -/
def docNothing : Node :=
  .elem "html" none [] [] [.elem "body" none [] [] [.text "no tracks here"]]

/-! ### Lemmas about the Time Normalizer -/

/-- Stripping surrounding whitespace only removes characters. -/
theorem mem_pyStripChars (cs : List Char) (c : Char) (h : c ∈ pyStripChars cs) :
    c ∈ cs := by
  unfold pyStripChars at h
  rw [List.mem_reverse] at h
  have h1 := (List.dropWhile_sublist (l := (cs.dropWhile pyIsSpace).reverse)
    (p := pyIsSpace)).subset h
  rw [List.mem_reverse] at h1
  exact (List.dropWhile_sublist (l := cs) (p := pyIsSpace)).subset h1

/-- Python `split` always yields at least one part. -/
theorem pySplit_ne_nil (sep : Char) (cs : List Char) : pySplit sep cs ≠ [] := by
  induction cs with
  | nil => simp [pySplit]
  | cons c rest ih =>
    simp only [pySplit]
    split
    · simp
    · split
      · simp
      · simp

/-- Characters of any part of a Python `split` come from the split string. -/
theorem mem_of_mem_pySplit (sep : Char) (cs : List Char) :
    ∀ part : List Char, part ∈ pySplit sep cs → ∀ c ∈ part, c ∈ cs := by
  induction cs with
  | nil =>
    intro part hp c hc
    simp [pySplit] at hp
    subst hp
    simp at hc
  | cons a rest ih =>
    intro part hp c hc
    simp only [pySplit] at hp
    by_cases ha : a = sep
    · rw [if_pos ha] at hp
      rcases List.mem_cons.mp hp with h | h
      · subst h; simp at hc
      · exact List.mem_cons_of_mem _ (ih part h c hc)
    · rw [if_neg ha] at hp
      rcases e : pySplit sep rest with _ | ⟨p, ps⟩
      · exact absurd e (pySplit_ne_nil sep rest)
      · rw [e] at hp
        rcases List.mem_cons.mp hp with h | h
        · subst h
          rcases List.mem_cons.mp hc with h1 | h1
          · subst h1; exact List.mem_cons_self _ _
          · exact List.mem_cons_of_mem _
              (ih p (e ▸ List.mem_cons_self _ _) c h1)
        · exact List.mem_cons_of_mem _
            (ih part (e ▸ List.mem_cons_of_mem _ h) c hc)

/-- A string that Python `int()` accepts without a minus sign is
non-negative. -/
theorem pyInt?_nonneg (cs : List Char) (n : Int) (h : pyInt? cs = some n)
    (hm : ('-' : Char) ∉ cs) : 0 ≤ n := by
  unfold pyInt? at h
  split at h
  · simp at h
  · rename_i c rest e
    split at h
    · split at h
      · injection h with h; subst h; exact Int.natCast_nonneg _
      · simp at h
    · split at h
      · rename_i h1 h2
        exact absurd (mem_pyStripChars cs '-'
          (e ▸ h2 ▸ List.mem_cons_self c rest)) hm
      · split at h
        · injection h with h; subst h; exact Int.natCast_nonneg _
        · simp at h

/-- Presence of a result from the Time Normalizer coincides with the spec's
three accepted shapes. -/
theorem format_time_ms_isSome (s : String) :
    (format_time_ms s).isSome = acceptedTimestamp s := by
  unfold format_time_ms acceptedTimestamp
  dsimp only
  split
  · split
    · rename_i m sec heq
      cases pyInt? m <;> cases pyInt? sec <;> simp
    · rename_i h m sec heq
      cases pyInt? h <;> cases pyInt? m <;> cases pyInt? sec <;> simp
    · simp
  · cases pyInt? s.toList <;> simp

/-! ### Claims about the Time Normalizer -/

/-- C4: on every accepted timestamp string the Time Normalizer returns the
documented millisecond value: three colon-separated integer fields give
`(H*3600 + M*60 + S) * 1000`, two fields give `(M*60 + S) * 1000`, and a
bare integer string gives the integer times 1000; in particular
`format_time_ms "0:34" = 34000` and `format_time_ms "1:30:45" = 5445000`. -/
theorem C4_time_normalizer_formula :
    (∀ (s : String) (a b c : List Char) (H M S : Int),
      s.toList.contains ':' = true →
      pySplit ':' s.toList = [a, b, c] →
      pyInt? a = some H → pyInt? b = some M → pyInt? c = some S →
      format_time_ms s = some ((H * 3600 + M * 60 + S) * 1000)) ∧
    (∀ (s : String) (a b : List Char) (M S : Int),
      s.toList.contains ':' = true →
      pySplit ':' s.toList = [a, b] →
      pyInt? a = some M → pyInt? b = some S →
      format_time_ms s = some ((M * 60 + S) * 1000)) ∧
    (∀ (s : String) (N : Int),
      s.toList.contains ':' = false →
      pyInt? s.toList = some N →
      format_time_ms s = some (N * 1000)) ∧
    format_time_ms "0:34" = some 34000 ∧
    format_time_ms "1:30:45" = some 5445000 := by
  refine ⟨?_, ?_, ?_, by decide, by decide⟩
  · intro s a b c H M S hc hsplit hH hM hS
    unfold format_time_ms
    dsimp only
    rw [hc, if_pos rfl, hsplit]
    simp [hH, hM, hS]
  · intro s a b M S hc hsplit hM hS
    unfold format_time_ms
    dsimp only
    rw [hc, if_pos rfl, hsplit]
    simp [hM, hS]
  · intro s N hc hN
    unfold format_time_ms
    dsimp only
    rw [hc]
    simp [hN]
    exact hN

/-- Witness for C4 at the concrete inputs `"1:30:45"`, `"0:34"` and `"90"`. -/
theorem C4_time_normalizer_formula_witness :
    format_time_ms "1:30:45" = some ((1 * 3600 + 30 * 60 + 45) * 1000) ∧
    format_time_ms "0:34" = some ((0 * 60 + 34) * 1000) ∧
    format_time_ms "90" = some (90 * 1000) :=
  ⟨C4_time_normalizer_formula.1 "1:30:45" "1".toList "30".toList "45".toList
      1 30 45 (by decide) (by decide) (by decide) (by decide) (by decide),
   C4_time_normalizer_formula.2.1 "0:34" "0".toList "34".toList
      0 34 (by decide) (by decide) (by decide) (by decide),
   C4_time_normalizer_formula.2.2.1 "90" 90 (by decide) (by decide)⟩

/-- C5: on every string that is not one of the three accepted timestamp
shapes, the Time Normalizer returns `none` (and, being a total function of
the embedding, never raises); in particular on `"invalid"` and `""`. -/
theorem C5_time_normalizer_rejects :
    (∀ s : String, acceptedTimestamp s = false → format_time_ms s = none) ∧
    format_time_ms "invalid" = none ∧
    format_time_ms "" = none := by
  refine ⟨?_, by decide, by decide⟩
  intro s h
  have h1 := format_time_ms_isSome s
  rw [h] at h1
  exact Option.not_isSome_iff_eq_none.mp (by simp [h1])

/-- Witness for C5 at the concrete input `"invalid"`. -/
theorem C5_time_normalizer_rejects_witness :
    format_time_ms "invalid" = none :=
  C5_time_normalizer_rejects.1 "invalid" (by decide)

/-- C6 counterexample: the Time Normalizer accepts `"-1"` (Python `int`
accepts a sign) and returns the negative value `-1000`, so a returned value
is not always non-negative. -/
theorem C6_counterexample :
    format_time_ms "-1" = some (-1000) ∧ ¬ (0 ≤ (-1000 : Int)) := by
  constructor
  · decide
  · decide

/-- C6 as amended: a value returned by the Time Normalizer is a non-negative
number of milliseconds whenever the input string contains no minus sign. -/
theorem C6_amended_nonneg (s : String) (v : Int)
    (h : format_time_ms s = some v) (hm : ('-' : Char) ∉ s.toList) : 0 ≤ v := by
  unfold format_time_ms at h
  dsimp only at h
  split at h
  · split at h
    · rename_i a b e
      rcases e1 : pyInt? a with _ | M <;> rw [e1] at h
      · simp at h
      rcases e2 : pyInt? b with _ | S <;> rw [e2] at h
      · simp at h
      have hM := pyInt?_nonneg a M e1 fun hmem =>
        hm (mem_of_mem_pySplit ':' s.toList a (e ▸ by simp) '-' hmem)
      have hS := pyInt?_nonneg b S e2 fun hmem =>
        hm (mem_of_mem_pySplit ':' s.toList b (e ▸ by simp) '-' hmem)
      simp at h
      omega
    · rename_i a b c e
      rcases e1 : pyInt? a with _ | H <;> rw [e1] at h
      · simp at h
      rcases e2 : pyInt? b with _ | M <;> rw [e2] at h
      · simp at h
      rcases e3 : pyInt? c with _ | S <;> rw [e3] at h
      · simp at h
      have hH := pyInt?_nonneg a H e1 fun hmem =>
        hm (mem_of_mem_pySplit ':' s.toList a (e ▸ by simp) '-' hmem)
      have hM := pyInt?_nonneg b M e2 fun hmem =>
        hm (mem_of_mem_pySplit ':' s.toList b (e ▸ by simp) '-' hmem)
      have hS := pyInt?_nonneg c S e3 fun hmem =>
        hm (mem_of_mem_pySplit ':' s.toList c (e ▸ by simp) '-' hmem)
      simp at h
      omega
    · simp at h
  · rcases e1 : pyInt? s.toList with _ | N <;> rw [e1] at h
    · simp at h
    have hN := pyInt?_nonneg s.toList N e1 hm
    simp at h
    omega

/-- Witness for the amended C6 at the concrete input `"0:34"`. -/
theorem C6_amended_nonneg_witness : (0 : Int) ≤ 34000 :=
  C6_amended_nonneg "0:34" 34000 (by decide) (by decide)

/-! ### Lemmas about the Chapter Synthesizer -/

/-- Characterization of a successful timing computation: the start is the
track's own parsed timestamp, and the end is either the next track's parsed
timestamp (non-last track) or start plus 240000 ms (last track). -/
theorem getTrackTimings_eq_some (t : Track) (i : Nat) (tracks : List Track)
    (s e : Int) (h : getTrackTimings t i tracks = some (s, e)) :
    ∃ ts, truthyTs t = some ts ∧ format_time_ms ts = some s ∧
      ((i < tracks.length - 1 ∧ ∃ nt nts, tracks[i + 1]? = some nt ∧
          truthyTs nt = some nts ∧ format_time_ms nts = some e) ∨
        (¬ i < tracks.length - 1 ∧ e = s + 240000)) := by
  unfold getTrackTimings at h
  split at h
  · exact absurd h (by simp)
  · rename_i ts hts
    split at h
    · exact absurd h (by simp)
    · rename_i s0 hs0
      split at h
      · rename_i hlt
        split at h
        · exact absurd h (by simp)
        · rename_i nt hnt
          split at h
          · exact absurd h (by simp)
          · rename_i nts hnts
            split at h
            · exact absurd h (by simp)
            · rename_i e0 he0
              simp only [Option.some.injEq, Prod.mk.injEq] at h
              obtain ⟨h1, h2⟩ := h
              subst h1; subst h2
              exact ⟨ts, hts, hs0, Or.inl ⟨hlt, nt, nts, hnt, hnts, he0⟩⟩
      · rename_i hlt
        simp only [Option.some.injEq, Prod.mk.injEq] at h
        obtain ⟨h1, h2⟩ := h
        subst h1
        exact ⟨ts, hts, hs0, Or.inr ⟨hlt, by omega⟩⟩

/-- Every interval emitted by the Synthesizer loop comes from the timing
computation of some track of the list, at or beyond the loop index. -/
theorem mem_synthChaptersAux (tracks : List Track) :
    ∀ (rest : List Track) (i : Nat), rest = tracks.drop i →
      ∀ c ∈ synthChaptersAux tracks i rest,
        ∃ j t, tracks[j]? = some t ∧ i ≤ j ∧
          getTrackTimings t j tracks = some (c.1, c.2.1) ∧
          c.2.2 = formatChapterTitle t := by
  intro rest
  induction rest with
  | nil => intro i _ c hc; simp [synthChaptersAux] at hc
  | cons t rs ih =>
    intro i hdrop c hc
    have ht : tracks[i]? = some t := by
      have h0 := List.getElem?_drop tracks i 0
      rw [← hdrop] at h0
      simpa using h0.symm
    have hrs : rs = tracks.drop (i + 1) := by
      have h0 := List.tail_drop tracks i
      rw [← hdrop] at h0
      simpa using h0
    simp only [synthChaptersAux] at hc
    split at hc
    · obtain ⟨j, t2, hj, hij, hg, htit⟩ := ih (i + 1) hrs c hc
      exact ⟨j, t2, hj, by omega, hg, htit⟩
    · rename_i se he
      rcases List.mem_cons.mp hc with h | h
      · subst h
        exact ⟨i, t, ht, le_refl _, by simpa using he, rfl⟩
      · obtain ⟨j, t2, hj, hij, hg, htit⟩ := ih (i + 1) hrs c h
        exact ⟨j, t2, hj, by omega, hg, htit⟩

/-- A track's chapter block is degenerate exactly when its timing
computation fails: an emitted block always has five lines. -/
theorem processTrack_getD_nil_iff (t : Track) (i : Nat) (tracks : List Track) :
    (processTrack t i tracks).getD [] = [] ↔ processTrack t i tracks = none := by
  unfold processTrack
  rcases getTrackTimings t i tracks with _ | se <;> simp [createChapterMetadata]

/-- The Synthesizer loop contributes no lines exactly when every remaining
track is dropped. -/
theorem synthLinesAux_eq_nil_iff (tracks : List Track) :
    ∀ (rest : List Track) (i : Nat),
      synthLinesAux tracks i rest = [] ↔
        ∀ k t, rest[k]? = some t → processTrack t (i + k) tracks = none := by
  intro rest
  induction rest with
  | nil => intro i; simp [synthLinesAux]
  | cons t rs ih =>
    intro i
    simp only [synthLinesAux]
    rw [List.append_eq_nil, processTrack_getD_nil_iff, ih (i + 1)]
    constructor
    · rintro ⟨h1, h2⟩ k t2 hk
      cases k with
      | zero =>
        simp only [List.getElem?_cons_zero, Option.some.injEq] at hk
        subst hk
        simpa using h1
      | succ k =>
        have hrw : i + (k + 1) = (i + 1) + k := by omega
        rw [hrw]
        exact h2 k t2 (by simpa using hk)
    · intro h
      refine ⟨by simpa using h 0 t (by simp), ?_⟩
      intro k t2 hk
      have hrw : (i + 1) + k = i + (k + 1) := by omega
      rw [hrw]
      exact h (k + 1) t2 (by simpa using hk)

/-- Specialization of the previous lemma to the whole list. -/
theorem synthLines_nil_iff (tracks : List Track) :
    synthLinesAux tracks 0 tracks = [] ↔
      ∀ i t, tracks[i]? = some t → processTrack t i tracks = none := by
  rw [synthLinesAux_eq_nil_iff tracks tracks 0]
  constructor
  · intro h i t hi
    have := h i t hi
    rwa [Nat.zero_add] at this
  · intro h k t hk
    rw [Nat.zero_add]
    exact h k t hk

/-- The metadata lines of the Synthesizer loop are the concatenation of one
five-line chapter block per emitted interval, in order. -/
theorem synthLinesAux_eq_flatMap (tracks : List Track) :
    ∀ (rest : List Track) (i : Nat),
      synthLinesAux tracks i rest =
        (synthChaptersAux tracks i rest).flatMap
          (fun c => createChapterMetadata c.1 c.2.1 c.2.2) := by
  intro rest
  induction rest with
  | nil => intro i; simp [synthLinesAux, synthChaptersAux]
  | cons t rs ih =>
    intro i
    simp only [synthLinesAux, synthChaptersAux]
    rcases e : getTrackTimings t i tracks with _ | se
    · simp [processTrack, e, ih (i + 1)]
    · simp [processTrack, e, ih (i + 1)]

/-- Reduction of `generate_ffmetadata` on a nonempty track list. -/
theorem generate_ffmetadata_nonempty (tracks : List Track) (h : tracks ≠ []) :
    generate_ffmetadata tracks =
      if synthLinesAux tracks 0 tracks = [] then .error .noValidChapters
      else .ok (String.intercalate "\n"
        (";FFMETADATA1" :: synthLinesAux tracks 0 tracks)) := by
  unfold generate_ffmetadata
  rw [if_neg (by simpa [List.isEmpty_iff] using h)]
  rcases synthLinesAux tracks 0 tracks with _ | ⟨l, ls⟩ <;> simp

/-! ### Claims about the Chapter Synthesizer and Serializer -/

/-- C1 counterexample: with two tracks both stamped `1:00`, the Synthesizer
emits the degenerate interval `[60000, 60000)` with `end = start`, which the
serialized output also contains, refuting `endMs > startMs` for equal or
decreasing successive timestamps. -/
theorem C1_counterexample :
    generate_ffmetadata
        [⟨some "X", none, some "1:00"⟩, ⟨some "X", none, some "1:00"⟩] =
      .ok (";FFMETADATA1\n[CHAPTER]\nTIMEBASE=1/1000\nSTART=60000\nEND=60000\ntitle=X\n[CHAPTER]\nTIMEBASE=1/1000\nSTART=60000\nEND=300000\ntitle=X") ∧
    ((60000 : Int), (60000 : Int), "X") ∈
      synthChapters [⟨some "X", none, some "1:00"⟩, ⟨some "X", none, some "1:00"⟩] ∧
    ¬ ((60000 : Int) < 60000) :=
  ⟨rfl, by decide, by decide⟩

/-- C1 as amended: when the parseable start times of consecutive tracks
strictly increase, every interval emitted by the Synthesizer satisfies
`endMs > startMs` (the last track's interval always does, since its end is
start + 240000). -/
theorem C1_amended_intervals_positive (tracks : List Track)
    (hmono : consecutiveStartsIncreasing tracks = true) :
    ∀ c ∈ synthChapters tracks, c.1 < c.2.1 := by
  intro c hc
  obtain ⟨j, t, hj, _, hg, _⟩ :=
    mem_synthChaptersAux tracks tracks 0 rfl c hc
  obtain ⟨ts, hts, hs, hcase⟩ :=
    getTrackTimings_eq_some t j tracks c.1 c.2.1 hg
  rcases hcase with ⟨hlt, nt, nts, hnt, hnts, he⟩ | ⟨_, he⟩
  · have hjr : j ∈ List.range (tracks.length - 1) := List.mem_range.mpr hlt
    have hall := List.all_eq_true.mp hmono _ hjr
    have hp1 : parsedStart t = some c.1 := by simp [parsedStart, hts, hs]
    have hp2 : parsedStart nt = some c.2.1 := by simp [parsedStart, hnts, he]
    rw [hj, hnt] at hall
    simp [hp1, hp2] at hall
    exact hall
  · omega

/-- Witness for the amended C1 at the three-track example. -/
theorem C1_amended_intervals_positive_witness :
    ((34000 : Int), (233000 : Int), "A-T1") ∈
      synthChapters [⟨some "A-T1", none, some "0:34"⟩,
        ⟨some "A-T2", none, some "3:53"⟩, ⟨some "A-T3", none, some "7:42"⟩] ∧
    (34000 : Int) < 233000 :=
  ⟨by decide,
   C1_amended_intervals_positive
     [⟨some "A-T1", none, some "0:34"⟩, ⟨some "A-T2", none, some "3:53"⟩,
      ⟨some "A-T3", none, some "7:42"⟩]
     (by decide) ((34000 : Int), (233000 : Int), "A-T1") (by decide)⟩

/-- C2: a non-last track with a parseable timestamp gets its end from track
i+1's parsed timestamp and is dropped when that is absent or unparsable; the
last track gets end = start + 240000; on the worked 3-track example the
emitted intervals are exactly `[34000,233000)`, `[233000,462000)`,
`[462000,702000)`. -/
theorem C2_end_time_rule :
    (∀ (tracks : List Track) (i : Nat) (t : Track) (ts : String) (s : Int),
      tracks[i]? = some t → truthyTs t = some ts → format_time_ms ts = some s →
      (∀ nt, i < tracks.length - 1 → tracks[i + 1]? = some nt →
        ((∀ nts e, truthyTs nt = some nts → format_time_ms nts = some e →
            getTrackTimings t i tracks = some (s, e)) ∧
          (truthyTs nt = none → getTrackTimings t i tracks = none) ∧
          (∀ nts, truthyTs nt = some nts → format_time_ms nts = none →
            getTrackTimings t i tracks = none))) ∧
      (i = tracks.length - 1 → getTrackTimings t i tracks = some (s, s + 240000))) ∧
    synthChapters [⟨some "A-T1", none, some "0:34"⟩,
        ⟨some "A-T2", none, some "3:53"⟩, ⟨some "A-T3", none, some "7:42"⟩] =
      [(34000, 233000, "A-T1"), (233000, 462000, "A-T2"),
        (462000, 702000, "A-T3")] := by
  refine ⟨?_, by decide⟩
  intro tracks i t ts s hi hts hs
  constructor
  · intro nt hlt hnt
    refine ⟨?_, ?_, ?_⟩
    · intro nts e hnts he
      simp [getTrackTimings, hts, hs, hlt, hnt, hnts, he]
    · intro hnone
      simp [getTrackTimings, hts, hs, hlt, hnt, hnone]
    · intro nts hnts hnone
      simp [getTrackTimings, hts, hs, hlt, hnt, hnts, hnone]
  · intro hlast
    have hlen : i < tracks.length := by
      by_contra hge
      rw [List.getElem?_eq_none (by omega)] at hi
      exact absurd hi (by simp)
    have hnlt : ¬ i < tracks.length - 1 := by omega
    simp [getTrackTimings, hts, hs, hnlt]

/-- Witness for C2 at the three-track example: the first track's interval
ends at the second track's start, and the last one at start + 240000. -/
theorem C2_end_time_rule_witness :
    getTrackTimings ⟨some "A-T1", none, some "0:34"⟩ 0
        [⟨some "A-T1", none, some "0:34"⟩, ⟨some "A-T2", none, some "3:53"⟩,
          ⟨some "A-T3", none, some "7:42"⟩] = some (34000, 233000) ∧
    getTrackTimings ⟨some "A-T3", none, some "7:42"⟩ 2
        [⟨some "A-T1", none, some "0:34"⟩, ⟨some "A-T2", none, some "3:53"⟩,
          ⟨some "A-T3", none, some "7:42"⟩] = some (462000, 462000 + 240000) :=
  ⟨((C2_end_time_rule.1 _ 0 _ "0:34" 34000 (by decide) (by decide)
      (by decide)).1 ⟨some "A-T2", none, some "3:53"⟩ (by decide)
      (by decide)).1 "3:53" 233000 (by decide) (by decide),
   (C2_end_time_rule.1 _ 2 _ "7:42" 462000 (by decide) (by decide)
      (by decide)).2 (by decide)⟩

/-- C3: the Synthesizer fails with the no-tracks error exactly on the empty
input, fails with the no-valid-chapters error exactly when the input is
nonempty and every track is dropped, succeeds otherwise, and a track with a
falsy timestamp is dropped without aborting the batch. -/
theorem C3_error_conditions :
    (∀ tracks : List Track,
      (generate_ffmetadata tracks = .error .noTracks ↔ tracks = []) ∧
      (generate_ffmetadata tracks = .error .noValidChapters ↔
        tracks ≠ [] ∧ ∀ i t, tracks[i]? = some t →
          processTrack t i tracks = none) ∧
      ((∃ out, generate_ffmetadata tracks = .ok out) ↔
        tracks ≠ [] ∧ ∃ i t, tracks[i]? = some t ∧
          processTrack t i tracks ≠ none)) ∧
    (∀ (tracks : List Track) (t : Track) (i : Nat),
      truthyTs t = none → processTrack t i tracks = none) := by
  constructor
  · intro tracks
    by_cases hemp : tracks = []
    · subst hemp
      refine ⟨by simp [generate_ffmetadata], by simp [generate_ffmetadata], ?_⟩
      simp [generate_ffmetadata]
    · rw [generate_ffmetadata_nonempty tracks hemp]
      by_cases hnil : synthLinesAux tracks 0 tracks = []
      · rw [if_pos hnil]
        refine ⟨by simp [hemp], ?_, ?_⟩
        · constructor
          · intro _
            exact ⟨hemp, (synthLines_nil_iff tracks).mp hnil⟩
          · intro _
            rfl
        · constructor
          · rintro ⟨out, hout⟩
            exact absurd hout (by simp)
          · rintro ⟨_, i, t, hi, hne⟩
            exact absurd ((synthLines_nil_iff tracks).mp hnil i t hi) hne
      · rw [if_neg hnil]
        refine ⟨by simp [hemp], ?_, ?_⟩
        · constructor
          · intro hcontra
            exact absurd hcontra (by simp)
          · rintro ⟨_, hall⟩
            exact absurd ((synthLines_nil_iff tracks).mpr hall) hnil
        · constructor
          · intro _
            have hnall : ¬ ∀ i t, tracks[i]? = some t →
                processTrack t i tracks = none :=
              fun hall => hnil ((synthLines_nil_iff tracks).mpr hall)
            push_neg at hnall
            obtain ⟨i, t, hi, hne⟩ := hnall
            exact ⟨hemp, i, t, hi, hne⟩
          · intro _
            exact ⟨_, rfl⟩
  · intro tracks t i h
    simp [processTrack, getTrackTimings, h]

/-- Witness for C3 at concrete inputs: empty input, an all-dropped input,
and a successful input. -/
theorem C3_error_conditions_witness :
    generate_ffmetadata [] = .error .noTracks ∧
    generate_ffmetadata [⟨some "X", none, none⟩] = .error .noValidChapters ∧
    processTrack ⟨some "X", none, none⟩ 0 [⟨some "X", none, none⟩] = none :=
  ⟨(C3_error_conditions.1 []).1.mpr rfl,
   (C3_error_conditions.1 [⟨some "X", none, none⟩]).2.1.mpr
     ⟨by decide, by
       intro i t hi
       cases i with
       | zero =>
         simp only [List.getElem?_cons_zero, Option.some.injEq] at hi
         subst hi
         rfl
       | succ n => simp at hi⟩,
   C3_error_conditions.2 [⟨some "X", none, none⟩] ⟨some "X", none, none⟩ 0 rfl⟩

/-- C9: a successful Serializer output is the newline join of the literal
header `;FFMETADATA1` followed by exactly one five-line `[CHAPTER]` block per
emitted interval, in order, with decimal `START`/`END` and the raw title. -/
theorem C9_serializer_shape (tracks : List Track) (out : String)
    (h : generate_ffmetadata tracks = .ok out) :
    synthChapters tracks ≠ [] ∧
    out = String.intercalate "\n" (";FFMETADATA1" ::
      (synthChapters tracks).flatMap (fun c =>
        ["[CHAPTER]", "TIMEBASE=1/1000", "START=" ++ toString c.1,
          "END=" ++ toString c.2.1, "title=" ++ c.2.2])) := by
  have hemp : tracks ≠ [] := by
    intro he
    subst he
    exact absurd h (by simp [generate_ffmetadata])
  rw [generate_ffmetadata_nonempty tracks hemp] at h
  split at h
  · exact absurd h (by simp)
  · rename_i hnil
    simp only [Except.ok.injEq] at h
    subst h
    have hflat := synthLinesAux_eq_flatMap tracks tracks 0
    constructor
    · intro hch
      apply hnil
      rw [hflat]
      have hch2 : synthChaptersAux tracks 0 tracks = [] := hch
      rw [hch2]
      rfl
    · rw [hflat]
      rfl

/-- Witness for C9 at a concrete successful input. -/
theorem C9_serializer_shape_witness :
    (";FFMETADATA1\n[CHAPTER]\nTIMEBASE=1/1000\nSTART=60000\nEND=300000\ntitle=X" : String) =
      String.intercalate "\n" (";FFMETADATA1" ::
        (synthChapters [⟨some "X", none, some "1:00"⟩]).flatMap (fun c =>
          ["[CHAPTER]", "TIMEBASE=1/1000", "START=" ++ toString c.1,
            "END=" ++ toString c.2.1, "title=" ++ c.2.2])) :=
  (C9_serializer_shape [⟨some "X", none, some "1:00"⟩] _ rfl).2

/-- C10 counterexample: a track whose artist key holds the empty string has
a present artist, yet the emitted title is the bare track title, not
`"{artist} - {title}"`. -/
theorem C10_counterexample :
    (⟨some "T", some "", some "0:01"⟩ : Track).artist = some "" ∧
    formatChapterTitle ⟨some "T", some "", some "0:01"⟩ = "T" ∧
    ("T" : String) ≠ " - T" := by
  refine ⟨rfl, rfl, by decide⟩

/-- C10 as amended: a track with no title defaults to the literal
`"Unknown Title"` (distinct from the Extractor's `"Unknown Track"`), and a
present, nonempty artist yields the composite `"{artist} - {title}"`; every
emitted chapter title is produced this way from some input track. -/
theorem C10_amended_title_default :
    (∀ t : Track, t.title = none → (t.artist = none ∨ t.artist = some "") →
      formatChapterTitle t = "Unknown Title") ∧
    (∀ (t : Track) (a : String), t.artist = some a → a ≠ "" →
      formatChapterTitle t = a ++ " - " ++ t.title.getD "Unknown Title") ∧
    ("Unknown Title" : String) ≠ "Unknown Track" ∧
    (∀ (tracks : List Track) (c : Int × Int × String), c ∈ synthChapters tracks →
      ∃ (j : Nat) (t : Track), tracks[j]? = some t ∧ c.2.2 = formatChapterTitle t) := by
  refine ⟨?_, ?_, by decide, ?_⟩
  · rintro t h (ha | ha) <;> simp [formatChapterTitle, h, ha]
  · intro t a ha hne
    simp [formatChapterTitle, ha, hne]
  · intro tracks c hc
    obtain ⟨j, t, hj, _, _, htit⟩ :=
      mem_synthChaptersAux tracks tracks 0 rfl c hc
    exact ⟨j, t, hj, htit⟩

/-- Witness for the amended C10 at concrete tracks. -/
theorem C10_amended_title_default_witness :
    formatChapterTitle ⟨none, none, some "0:01"⟩ = "Unknown Title" ∧
    formatChapterTitle ⟨some "T", some "Ar", some "0:01"⟩ = "Ar - T" :=
  ⟨C10_amended_title_default.1 ⟨none, none, some "0:01"⟩ rfl (Or.inl rfl),
   C10_amended_title_default.2.1 ⟨some "T", some "Ar", some "0:01"⟩ "Ar" rfl
     (by decide)⟩

/-! ### Lemmas about the Track Extractor -/

/-- Track-item processing never reports the missing-container error. -/
theorem tracksFromContainer_ne_noContainer (c : Node) :
    tracksFromContainer c ≠ .error .noContainer := by
  unfold tracksFromContainer
  split
  · simp
  · dsimp only
    split <;> simp

/-- A forest member is among the forest's documents-order nodes. -/
theorem mem_descList_of_mem (ns : List Node) (n : Node) (h : n ∈ ns) :
    n ∈ descList ns := by
  induction ns with
  | nil => simp at h
  | cons m ms ih =>
    simp only [descList]
    rcases List.mem_cons.mp h with h | h
    · subst h
      exact List.mem_cons_self _ _
    · exact List.mem_cons_of_mem _ (List.mem_append_right _ (ih h))

/-- Pruning moved-out descendants does not change how the node itself
matches a simple selector. -/
theorem matchesSimple_pruneSel (s sel : SimpleSel) (n : Node) :
    matchesSimple s (pruneSel sel n) = matchesSimple s n := by
  cases n <;> rfl

/-- Characterization of a successful direct track-record fallback: the
winning selector is one of the candidates and its document-wide matches are
the returned nonempty item list. -/
theorem fallbackItems_eq_some (doc : Node) (sel : SimpleSel)
    (items : List Node) (h : fallbackItems doc = some (sel, items)) :
    sel ∈ trackItemSelectors ∧ selectSimple sel doc = items ∧ items ≠ [] := by
  obtain ⟨a, ha, hfa⟩ := List.exists_of_findSome?_eq_some h
  rcases e : selectSimple a doc with _ | ⟨i, is⟩ <;> rw [e] at hfa
  · simp at hfa
  · simp only [Option.some.injEq, Prod.mk.injEq] at hfa
    obtain ⟨h1, h2⟩ := hfa
    subst h1
    subst h2
    exact ⟨ha, e, by simp⟩

/-- Re-selecting the fallback items inside the synthesized wrapper finds at
least the items themselves. -/
theorem selectSimple_wrapper_ne_nil (sel : SimpleSel) (items : List Node)
    (hne : items ≠ []) (hmatch : ∀ i ∈ items, matchesSimple sel i = true) :
    selectSimple sel (.elem "div" none [] [] (items.map (pruneSel sel))) ≠ [] := by
  rcases items with _ | ⟨i, is⟩
  · exact absurd rfl hne
  · apply List.ne_nil_of_mem (a := pruneSel sel i)
    unfold selectSimple
    apply List.mem_filter.mpr
    refine ⟨?_, ?_⟩
    · show pruneSel sel i ∈
        descendants (.elem "div" none [] [] ((i :: is).map (pruneSel sel)))
      simp only [descendants, List.map]
      exact mem_descList_of_mem _ _ (List.mem_cons_self _ _)
    · rw [matchesSimple_pruneSel]
      exact hmatch i (List.mem_cons_self _ _)

/-- When some track-record selector matches within the container, the
track-item stage either fails for lack of valid tracks or succeeds with a
nonempty track list. -/
theorem tracksFromContainer_result (c : Node)
    (h : trackItemSelectors.findSome? (fun sel =>
      match selectSimple sel c with
      | [] => none
      | items => some items) ≠ none) :
    tracksFromContainer c = .error .noValidTracks ∨
      ∃ ts, tracksFromContainer c = .ok ts ∧ ts ≠ [] := by
  unfold tracksFromContainer
  rcases e : trackItemSelectors.findSome? (fun sel =>
      match selectSimple sel c with
      | [] => none
      | items => some items) with _ | items
  · exact absurd e h
  · dsimp only
    split
    · left
      rfl
    · right
      rename_i hni
      refine ⟨_, rfl, ?_⟩
      intro hnil
      exact hni (by rw [hnil]; rfl)

/-! ### Claims about the Track Extractor -/

/-- C7: the Extractor reports the missing-container error exactly when no
container selector and no direct track-record selector matches anything in
the document, and reports the missing-items error when a container is
located but no track-record selector matches within it. -/
theorem C7_extractor_error_conditions (doc : Node) :
    (parse_tracklist doc = .error .noContainer ↔
      (∀ sel ∈ containerSelectors, selectSimple sel doc = []) ∧
      (∀ sel ∈ trackItemSelectors, selectSimple sel doc = [])) ∧
    (∀ container,
      containerSelectors.findSome? (fun sel => (selectSimple sel doc).head?) =
        some container →
      (∀ sel ∈ trackItemSelectors, selectSimple sel container = []) →
      parse_tracklist doc = .error .noItems) := by
  constructor
  · constructor
    · intro h
      unfold parse_tracklist at h
      split at h
      · exact absurd h (tracksFromContainer_ne_noContainer _)
      · rename_i hcont
        split at h
        · exact absurd h (tracksFromContainer_ne_noContainer _)
        · rename_i hfb
          constructor
          · intro sel hs
            have := List.findSome?_eq_none_iff.mp hcont sel hs
            exact List.head?_eq_none_iff.mp this
          · intro sel hs
            have hnone := List.findSome?_eq_none_iff.mp hfb sel hs
            rcases e : selectSimple sel doc with _ | ⟨i, is⟩
            · rfl
            · rw [e] at hnone
              simp at hnone
    · rintro ⟨hc, ht⟩
      have hc2 : containerSelectors.findSome?
          (fun sel => (selectSimple sel doc).head?) = none :=
        List.findSome?_eq_none_iff.mpr (fun sel hs => by rw [hc sel hs]; rfl)
      have hf2 : fallbackItems doc = none :=
        List.findSome?_eq_none_iff.mpr (fun sel hs => by rw [ht sel hs])
      simp [parse_tracklist, hc2, hf2]
  · intro container hfind hempty
    have hni : trackItemSelectors.findSome? (fun sel =>
        match selectSimple sel container with
        | [] => none
        | items => some items) = none :=
      List.findSome?_eq_none_iff.mpr (fun sel hs => by rw [hempty sel hs])
    simp [parse_tracklist, hfind, tracksFromContainer, hni]

/-- Witness for C7 at concrete documents: a document with no selector
matches (container error) and a document with an empty matching container
(items error). -/
theorem C7_extractor_error_conditions_witness :
    parse_tracklist docNothing = .error .noContainer ∧
    parse_tracklist docEmptyContainer = .error .noItems :=
  ⟨(C7_extractor_error_conditions docNothing).1.mpr
    ⟨by intro sel hs; simp [containerSelectors] at hs
        rcases hs with rfl | rfl | rfl | rfl | rfl <;> rfl,
     by intro sel hs; simp [trackItemSelectors] at hs
        rcases hs with rfl | rfl | rfl | rfl <;> rfl⟩,
   (C7_extractor_error_conditions docEmptyContainer).2
     (.elem "div" none ["tlpContainer"] [] []) rfl
     (by intro sel hs; simp [trackItemSelectors] at hs
         rcases hs with rfl | rfl | rfl | rfl <;> rfl)⟩

/-- C8 counterexample: in a document where no container selector matches and
the direct track-record selector `div.tlpItem` does match, but the matched
item carries no timestamp, extraction does not succeed — it fails with the
no-valid-tracks error — refuting unconditional success of the fallback. -/
theorem C8_counterexample :
    (containerSelectors.all
      fun sel => (selectSimple sel docFallbackNoTs).isEmpty) = true ∧
    (selectSimple ⟨"div", .cls "tlpItem"⟩ docFallbackNoTs).isEmpty = false ∧
    (⟨"div", .cls "tlpItem"⟩ : SimpleSel) ∈ trackItemSelectors ∧
    parse_tracklist docFallbackNoTs = .error .noValidTracks :=
  ⟨rfl, rfl, by decide, rfl⟩

/-- C8 as amended: when no container selector matches but some direct
track-record selector does (whichever candidate it is), extraction proceeds
with the matched items — placed in a synthesized wrapper `div`, which the
code does create — and never reports the container or items errors; it
succeeds with a nonempty track list unless no item yields a valid track, in
which case it fails with the no-valid-tracks error. -/
theorem C8_amended_fallback (doc : Node) (sel : SimpleSel) (items : List Node)
    (hnc : (containerSelectors.all
      fun s => (selectSimple s doc).isEmpty) = true)
    (hfb : fallbackItems doc = some (sel, items)) :
    parse_tracklist doc ≠ .error .noContainer ∧
    parse_tracklist doc ≠ .error .noItems ∧
    parse_tracklist doc =
      tracksFromContainer (.elem "div" none [] [] (items.map (pruneSel sel))) ∧
    (parse_tracklist doc = .error .noValidTracks ∨
      ∃ ts, parse_tracklist doc = .ok ts ∧ ts ≠ []) := by
  obtain ⟨hmem, hsel, hne⟩ := fallbackItems_eq_some doc sel items hfb
  have hcont : containerSelectors.findSome?
      (fun s => (selectSimple s doc).head?) = none := by
    apply List.findSome?_eq_none_iff.mpr
    intro s hs
    have hall := List.all_eq_true.mp hnc s hs
    rw [List.head?_eq_none_iff]
    exact List.isEmpty_iff.mp hall
  have hparse : parse_tracklist doc =
      tracksFromContainer (.elem "div" none [] [] (items.map (pruneSel sel))) := by
    simp [parse_tracklist, hcont, hfb]
  have hmatch : ∀ i ∈ items, matchesSimple sel i = true := by
    intro i hi
    rw [← hsel] at hi
    exact List.of_mem_filter hi
  have hwne := selectSimple_wrapper_ne_nil sel items hne hmatch
  have hfind : trackItemSelectors.findSome? (fun s =>
      match selectSimple s (.elem "div" none [] [] (items.map (pruneSel sel))) with
      | [] => none
      | its => some its) ≠ none := by
    intro hnone
    have hselnone := List.findSome?_eq_none_iff.mp hnone sel hmem
    rcases e : selectSimple sel
        (.elem "div" none [] [] (items.map (pruneSel sel))) with _ | ⟨x, xs⟩
    · exact hwne e
    · rw [e] at hselnone
      simp at hselnone
  have hni : tracksFromContainer
      (.elem "div" none [] [] (items.map (pruneSel sel))) ≠ .error .noItems := by
    unfold tracksFromContainer
    rcases e : trackItemSelectors.findSome? (fun s =>
        match selectSimple s (.elem "div" none [] [] (items.map (pruneSel sel))) with
        | [] => none
        | its => some its) with _ | its
    · exact absurd e hfind
    · dsimp only
      split <;> simp
  refine ⟨?_, ?_, hparse, ?_⟩
  · rw [hparse]
    exact tracksFromContainer_ne_noContainer _
  · rw [hparse]
    exact hni
  · rw [hparse]
    exact tracksFromContainer_result _ hfind

/-- Witness for the amended C8 at a concrete fallback document with one
valid track record. -/
theorem C8_amended_fallback_witness :
    parse_tracklist docFallback ≠ .error .noContainer ∧
    parse_tracklist docFallback =
      .ok [⟨some "Artist A - Song T", none, some "0:34"⟩] :=
  ⟨(C8_amended_fallback docFallback ⟨"div", .cls "tlpItem"⟩
      [.elem "div" none ["tlpItem"] []
        [.elem "span" none ["time"] [] [.text " 0:34 "],
         .elem "span" none ["trackValue"] [] [.text "Artist A - Song T"]]]
      rfl rfl).1,
   rfl⟩

end TCF
